import Mathlib

/-!
Verification of the status-reconciliation and aggregation engine of the
`ctrl_bps` reporting code (`bps_reports.py` and `report.py`): the report
views (`SummaryRunReport`/`AbridgedRunReport`, `DetailedRunReport`,
`ExitCodesReport`), the run-summary micro-format parser, job grouping and
job-summary compilation, and the success-percentage computation.

Python dictionaries are embedded as association lists preserving insertion
order; Python exceptions (`ValueError` from `str.split` unpacking or
`int()`, `KeyError` from `dict[...]`) are embedded as an `Except`-style
result carried next to the (possibly partially updated) report state, so
that the state visible after an exception is modelled faithfully.  Python
`float` arithmetic (used only by the success percentage) is embedded as
exact IEEE-754 binary64 round-to-nearest-even over rationals in the normal
range.
-/

/-- Modelled from the spec: the closed `JobState` enumeration
(`wms_service.WmsStates` is not part of the sources at hand); the spec
names the pending/unready, ready, running, succeeded, failed, deleted and
held lifecycle states.  The declared order fixes report column order. -/
inductive WmsStates where
  | UNREADY
  | READY
  | PENDING
  | RUNNING
  | SUCCEEDED
  | FAILED
  | DELETED
  | HELD
deriving DecidableEq, Repr

/-- The enumeration order of `WmsStates`, as iterated by
`for state in WmsStates` in the Python source. -/
def WmsStates.all : List WmsStates :=
  [.UNREADY, .READY, .PENDING, .RUNNING, .SUCCEEDED, .FAILED, .DELETED, .HELD]

/-- `state.name` of a Python enum member. -/
def WmsStates.name : WmsStates → String
  | .UNREADY => "UNREADY"
  | .READY => "READY"
  | .PENDING => "PENDING"
  | .RUNNING => "RUNNING"
  | .SUCCEEDED => "SUCCEEDED"
  | .FAILED => "FAILED"
  | .DELETED => "DELETED"
  | .HELD => "HELD"

/-- Python `dict` lookup `d.get(k)`: first (and in a dict, only) binding. -/
def alookup {α β : Type} [DecidableEq α] : List (α × β) → α → Option β
  | [], _ => none
  | (k, v) :: rest, x => if k = x then some v else alookup rest x

/-- Python `dict` assignment `d[k] = v`: replace in place if the key is
present (insertion order kept), else append the new binding. -/
def aupdate {α β : Type} [DecidableEq α] : List (α × β) → α → β → List (α × β)
  | [], k, v => [(k, v)]
  | (k0, v0) :: rest, k, v =>
      if k0 = k then (k, v) :: rest else (k0, v0) :: aupdate rest k v

/-- Sum of a Python dict's values, `sum(d.values())`. -/
def sumValues {α : Type} (l : List (α × ℤ)) : ℤ :=
  (l.map Prod.snd).sum

/-- A per-label mapping `JobState -> count` (one Python `dict`). -/
abbrev Counts := List (WmsStates × ℤ)

/-- The job summary: mapping label -> \x7bstate -> count\x7d. -/
abbrev JobSummary := List (String × Counts)

/-- One job record (`WmsJobReport`); only the label and state fields are
used by the reporting code. -/
structure WmsJobReport where
  name : String
  label : String
  state : WmsStates
deriving DecidableEq, Repr

/-- One run record (`WmsRunReport`), with the fields the report views
read.  Absent optional values are embedded by their Python falsy values:
`run_summary = ""`, `job_summary = []`, `jobs = []`. -/
structure WmsRunReport where
  wms_id : String := ""
  global_wms_id : String := ""
  state : WmsStates := .RUNNING
  operator : String := ""
  project : String := ""
  campaign : String := ""
  payload : String := ""
  run : String := ""
  total_number_jobs : ℤ := 0
  job_state_counts : Counts := []
  run_summary : String := ""
  job_summary : JobSummary := []
  jobs : List WmsJobReport := []
  exit_code_summary : List (String × List ℤ) := []
deriving DecidableEq, Repr

/-- Python exceptions raised by the reporting code: `ValueError` (tuple
unpacking of `str.split`, `int()` on a non-numeric string) and `KeyError`
(direct `dict[...]` indexing). -/
inductive PyErr where
  | valueError (msg : String)
  | keyError (key : String)
deriving DecidableEq, Repr

/-- `group_jobs_by_state`: initialize one empty group per enumeration
value, then append each job to its state's group in input order. -/
def group_jobs_by_state (jobs : List WmsJobReport) : List (WmsStates × List WmsJobReport) :=
  jobs.foldl
    (fun acc j => aupdate acc j.state ((alookup acc j.state).getD [] ++ [j]))
    (WmsStates.all.map fun s => (s, []))

/-- `group_jobs_by_label`: lazily create a group per first-seen label
(insertion order), appending each job in input order (`setdefault`). -/
def group_jobs_by_label (jobs : List WmsJobReport) : List (String × List WmsJobReport) :=
  jobs.foldl
    (fun acc j => aupdate acc j.label ((alookup acc j.label).getD [] ++ [j])) []

/-- `compile_job_summary`: per label group, group by state and reduce each
state's group to its length. -/
def compile_job_summary (jobs : List WmsJobReport) : JobSummary :=
  (group_jobs_by_label jobs).map fun lg =>
    (lg.1, (group_jobs_by_state lg.2).map fun sg => (sg.1, (sg.2.length : ℤ)))

/-- Python string comparison: lexicographic on Unicode code points. -/
def charListLt : List Char → List Char → Bool
  | [], [] => false
  | [], _ :: _ => true
  | _ :: _, [] => false
  | c1 :: r1, c2 :: r2 =>
    if c1.toNat < c2.toNat then true
    else if c2.toNat < c1.toNat then false
    else charListLt r1 r2

/-- Python `a < b` on strings. -/
def pyStrLt (a b : String) : Bool :=
  charListLt a.toList b.toList

/-- Insert a string into an already sorted list: before the first entry
not below it (code-point lexicographic order, as Python compares `str`). -/
def insertSorted (x : String) : List String → List String
  | [] => [x]
  | y :: ys => if pyStrLt y x then y :: insertSorted x ys else x :: y :: ys

/-- Python `sorted` on a collection of strings. -/
def pySorted (l : List String) : List String :=
  l.foldr insertSorted []

/-- Python `s.split(sep)` for a one-character separator, over the
character list: every occurrence of the separator cuts, so an empty
string yields `[""]` and a trailing separator yields a trailing "". -/
def pySplitAux (sep : Char) : List Char → List Char → List String
  | [], cur => [String.mk cur.reverse]
  | c :: rest, cur =>
    if c = sep then String.mk cur.reverse :: pySplitAux sep rest []
    else pySplitAux sep rest (c :: cur)

/-- Python `s.split(sep)` for a one-character separator (the source
splits only on ";" and ":"). -/
def pySplit (s : String) (sep : Char) : List String :=
  pySplitAux sep s.toList []

/-- Strip leading and trailing whitespace from a character list, as
`int()` does before parsing. -/
def stripChars (cs : List Char) : List Char :=
  ((cs.dropWhile Char.isWhitespace).reverse.dropWhile Char.isWhitespace).reverse

/-- Digits of a decimal literal to a number; `none` unless the character
list is a nonempty run of decimal digits. -/
def digitsToNat (cs : List Char) : Option ℕ :=
  if cs ≠ [] ∧ cs.all Char.isDigit then
    some (cs.foldl (fun n c => 10 * n + (c.toNat - 48)) 0)
  else
    none

/-- Python `int(s)` on a decimal string: surrounding whitespace stripped,
optional sign, then decimal digits; `none` (a `ValueError`) otherwise.
(Underscore digit grouping, accepted by CPython, is not modelled.) -/
def pyIntOfString (s : String) : Option ℤ :=
  match stripChars s.toList with
  | '-' :: cs => (digitsToNat cs).map fun n => -(n : ℤ)
  | '+' :: cs => (digitsToNat cs).map fun n => (n : ℤ)
  | cs => (digitsToNat cs).map fun n => (n : ℤ)

/-- Fuel-based floor of base-2 logarithm of a natural number
(`log2Aux n n` is `Nat.log2 n` for positive `n`). -/
def log2Aux : ℕ → ℕ → ℕ
  | 0, _ => 0
  | fuel + 1, n => if n ≤ 1 then 0 else 1 + log2Aux fuel (n / 2)

/-- Floor of the base-2 logarithm of a positive natural number. -/
def natLog2 (n : ℕ) : ℕ := log2Aux n n

/-- Fuel-based ceiling of base-2 logarithm. -/
def clog2Aux : ℕ → ℕ → ℕ
  | 0, _ => 0
  | fuel + 1, n => if n ≤ 1 then 0 else 1 + clog2Aux fuel ((n + 1) / 2)

/-- Ceiling of the base-2 logarithm of a positive natural number. -/
def natClog2 (n : ℕ) : ℕ := clog2Aux n n

/-- Floor of the base-2 logarithm of the positive fraction `a / b`.
For `a / b < 1` it is `-⌈log2 (b / a)⌉`, and `⌈log2 (b / a)⌉` equals
`natClog2 ⌈b / a⌉` because the bounding powers of two are integers. -/
def fracFloorLog2 (a b : ℕ) : ℤ :=
  if b ≤ a then (natLog2 (a / b) : ℤ)
  else -(natClog2 ((b + a - 1) / a) : ℤ)

/-- Round the nonnegative fraction `a / b` (with `b > 0`) to the nearest
natural number, ties to even. -/
def divRoundNearestEven (a b : ℕ) : ℕ :=
  let q := a / b
  let r := a % b
  if 2 * r < b then q
  else if b < 2 * r then q + 1
  else if q % 2 = 0 then q else q + 1

/-- A dyadic rational `n * 2 ^ e`; binary64 values are represented exactly
this way (no overflow, infinity or subnormal behaviour arises in the
percentage computation, whose values lie well inside the normal range). -/
structure Dyadic where
  n : ℤ
  e : ℤ
deriving DecidableEq, Repr

/-- Round the positive fraction `a / b` to 53 significant bits — IEEE-754
binary64 round-to-nearest-even in the normal range. -/
def floatOfRatPos (a b : ℕ) : Dyadic :=
  let k := fracFloorLog2 a b
  let s : ℤ := 52 - k
  let n :=
    if 0 ≤ s then divRoundNearestEven (a * 2 ^ s.toNat) b
    else divRoundNearestEven a (b * 2 ^ (-s).toNat)
  ⟨(n : ℤ), k - 52⟩

/-- Python `a / b` (true division) on integers: CPython produces the
exact quotient correctly rounded to binary64.  The source guards the
division with `if run_report.total_number_jobs:`, so `b ≠ 0` at every
call; division by zero is given the unused value 0. -/
def pyTrueDiv (a b : ℤ) : Dyadic :=
  if a = 0 ∨ b = 0 then ⟨0, 0⟩
  else
    let d := floatOfRatPos a.natAbs b.natAbs
    if (0 ≤ a) = (0 ≤ b) then d else ⟨-d.n, d.e⟩

/-- Python `x * 100` on a binary64 `x`: the exact product rounded back to
53 significant bits (round to nearest, ties to even). -/
def pyMul100 (x : Dyadic) : Dyadic :=
  if x.n = 0 then ⟨0, 0⟩
  else
    let m := x.n.natAbs * 100
    let k := natLog2 m
    let n := if k ≤ 52 then m else divRoundNearestEven m (2 ^ (k - 52))
    let e := if k ≤ 52 then x.e else x.e + ((k - 52 : ℕ) : ℤ)
    ⟨if 0 ≤ x.n then (n : ℤ) else -(n : ℤ), e⟩

/-- Python `int()` on a binary64 value: truncation toward zero. -/
def dyadicTrunc (d : Dyadic) : ℤ :=
  if 0 ≤ d.e then d.n * 2 ^ d.e.toNat
  else
    let m := d.n.natAbs / 2 ^ (-d.e).toNat
    if 0 ≤ d.n then (m : ℤ) else -(m : ℤ)

/-- The success-percentage column value of `SummaryRunReport.add` (and of
`AbridgedRunReport.add`, identical in `report.py`): "UNK" when
`total_number_jobs` is falsy, else the decimal rendering of
`int(succeeded / total_number_jobs * 100)` computed in binary64, where
`succeeded` is `job_state_counts.get(WmsStates.SUCCEEDED, 0)`. -/
def percentSucceeded (r : WmsRunReport) : String :=
  if r.total_number_jobs = 0 then "UNK"
  else
    let succeeded := (alookup r.job_state_counts WmsStates.SUCCEEDED).getD 0
    toString (dyadicTrunc (pyMul100 (pyTrueDiv succeeded r.total_number_jobs)))

/-- The attention-flag column value of `SummaryRunReport.add`: blank by
default; for a RUNNING run the first applicable of F (failed), D
(deleted), H (held), testing counts for Python truthiness. -/
def runFlag (r : WmsRunReport) : String :=
  if r.state = WmsStates.RUNNING then
    if (alookup r.job_state_counts WmsStates.FAILED).getD 0 ≠ 0 then "F"
    else if (alookup r.job_state_counts WmsStates.DELETED).getD 0 ≠ 0 then "D"
    else if (alookup r.job_state_counts WmsStates.HELD).getD 0 ≠ 0 then "H"
    else " "
  else " "

/-- One row of the summary report (columns X, STATE, %S, ID, OPERATOR,
PROJECT, CAMPAIGN, PAYLOAD, RUN). -/
structure SummaryRow where
  flag : String
  stateName : String
  percent : String
  id : String
  operator : String
  project : String
  campaign : String
  payload : String
  run : String
deriving DecidableEq, Repr

/-- The mutable state of a `SummaryRunReport`: the accumulated row table
and the advisory message slot (`_msg`), which `SummaryRunReport.add`
never touches. -/
structure SummaryReport where
  table : List SummaryRow
  msg : Option String
deriving DecidableEq, Repr

/-- `SummaryRunReport.add` (also `AbridgedRunReport.add` of `report.py`):
computes the flag and success percentage and appends one row.  It is
total: it raises no exception for any run record. -/
def summaryAdd (st : SummaryReport) (r : WmsRunReport) (useGlobalId : Bool) : SummaryReport :=
  { st with
    table := st.table ++
      [{ flag := runFlag r
         stateName := r.state.name
         percent := percentSucceeded r
         id := if useGlobalId then r.global_wms_id else r.wms_id
         operator := r.operator
         project := r.project
         campaign := r.campaign
         payload := r.payload
         run := r.run }] }

/-- Parse the `run_summary` string of a `DetailedRunReport.add` call:
split on ";", unpack each part on ":" (a `ValueError` unless exactly two
pieces), convert the count with `int` (a `ValueError` when non-numeric),
and store into the expected-counts dict in order. -/
def parseRunSummaryGo : List String → List (String × ℤ) → Except PyErr (List (String × ℤ))
  | [], acc => .ok acc
  | part :: rest, acc =>
    match pySplit part ':' with
    | [label, count] =>
      match pyIntOfString count with
      | some n => parseRunSummaryGo rest (aupdate acc label n)
      | none => .error (.valueError ("invalid literal for int: " ++ count))
    | _ => .error (.valueError "unpack")

/-- The expected per-label counts of `DetailedRunReport.add`: empty when
`run_summary` is falsy, else parsed from it. -/
def detailedExpected (r : WmsRunReport) : Except PyErr (List (String × ℤ)) :=
  if r.run_summary = "" then .ok []
  else parseRunSummaryGo (pySplit r.run_summary ';') []

/-- Parse the `run_summary` string of an `ExitCodesReport.add` call: the
labels only — the count piece is unpacked but never converted, so a
non-numeric count raises nothing here. -/
def parseRunSummaryLabels : List String → List String → Except PyErr (List String)
  | [], acc => .ok acc
  | part :: rest, acc =>
    match pySplit part ':' with
    | [label, _] => parseRunSummaryLabels rest (acc ++ [label])
    | _ => .error (.valueError "unpack")

/-- `[mapping[state] for state in states]`-style direct indexing: the
values at the given states, or a `KeyError` naming the first missing one
(raised before any row is appended, exactly as the comprehension runs
before `add_row`). -/
def lookupAllStates (m : Counts) : List WmsStates → Except PyErr (List ℤ)
  | [] => .ok []
  | s :: rest =>
    match alookup m s with
    | none => .error (.keyError s.name)
    | some v => (lookupAllStates m rest).map (v :: ·)

/-- One row of the detailed report: the row label ("TOTAL" or a pipeline
label), one integer per `WmsStates` value in enumeration order, and the
trailing EXPECTED value. -/
structure DetailedRow where
  label : String
  stateCounts : List ℤ
  expected : ℤ
deriving DecidableEq, Repr

/-- The mutable state of a `DetailedRunReport`: row table and advisory
message slot (`_msg`). -/
structure DetailedReport where
  table : List DetailedRow
  msg : Option String
deriving DecidableEq, Repr

deriving instance DecidableEq for Except

/-- The outcome of one `DetailedRunReport.add` call: the exception
raised, if any, plus the report state and the run record as they stand
afterwards (a raised exception leaves earlier effects in place). -/
structure DetailedResult where
  res : Except PyErr Unit
  report : DetailedReport
  runOut : WmsRunReport
deriving DecidableEq, Repr

/-- `BaseRunReport.clear`: drop all rows and reset the message slot. -/
def detailedClear (_st : DetailedReport) : DetailedReport :=
  { table := [], msg := none }

/-- Assemble one per-label row of `DetailedRunReport.add`: the values
`counts[state]` for every state (`KeyError` on a missing state), then
`by_label_expected[label] if by_label_expected else -1`. -/
def detailedRowBuild (expected : List (String × ℤ)) (label : String) (counts : Counts) :
    Except PyErr DetailedRow :=
  match lookupAllStates counts WmsStates.all with
  | .error e => .error e
  | .ok vals =>
    if expected = [] then .ok ⟨label, vals, -1⟩
    else
      match alookup expected label with
      | some ev => .ok ⟨label, vals, ev⟩
      | none => .error (.keyError label)

/-- The body of the per-label loop of `DetailedRunReport.add` for one
label: fetch the label's counts (a full row of the sentinel -1 when the
label is absent from the job summary), reconcile against the expected
count when the label has one — `counts[UNREADY] += expected - observed`
mutates the aliased job-summary entry in place — and build the row.
Returns the row (or the exception) together with the job summary as the
call leaves it. -/
def detailedStep (expected : List (String × ℤ)) (js : JobSummary) (label : String) :
    Except PyErr DetailedRow × JobSummary :=
  match alookup js label with
  | none =>
    (detailedRowBuild expected label (WmsStates.all.map fun s => (s, (-1 : ℤ))), js)
  | some counts =>
    match alookup expected label with
    | none => (detailedRowBuild expected label counts, js)
    | some ev =>
      if sumValues counts = ev then (detailedRowBuild expected label counts, js)
      else
        match alookup counts WmsStates.UNREADY with
        | none => (.error (.keyError WmsStates.UNREADY.name), js)
        | some u =>
          (detailedRowBuild expected label
              (aupdate counts WmsStates.UNREADY (u + (ev - sumValues counts))),
            aupdate js label (aupdate counts WmsStates.UNREADY (u + (ev - sumValues counts))))

/-- The per-label loop of `DetailedRunReport.add`: process each label in
order, appending one row per label; an exception stops the loop, keeping
the rows already appended and the mutations already made. -/
def detailedLabelLoop (expected : List (String × ℤ)) :
    List String → JobSummary → List DetailedRow →
    Except PyErr Unit × List DetailedRow × JobSummary
  | [], js, acc => (.ok (), acc, js)
  | label :: rest, js, acc =>
    match detailedStep expected js label with
    | (.error e, js2) => (.error e, acc, js2)
    | (.ok row, js2) => detailedLabelLoop expected rest js2 (acc ++ [row])

/-- The row order of the per-label loop: `list(by_label_expected)` when a
run summary was parsed, else the observed labels sorted alphabetically. -/
def detailedJobOrder (expected : List (String × ℤ)) (js : JobSummary) : List String :=
  if expected ≠ [] then expected.map Prod.fst else pySorted (js.map Prod.fst)

/-- The warning set when neither a job summary nor per-job data is
available. -/
def jobSummaryWarning (id_ : String) : String :=
  "WARNING: Job summary for run \x27" ++ id_ ++
    "\x27 not available, report maybe incomplete."

/-- The warning set when the pipeline order could not be determined. -/
def orderWarning : String :=
  "WARNING: Could not determine order of pipeline, instead sorted alphabetically."

/-- `DetailedRunReport.add`; see the Python source for the shape.  The
message slot is written only by the two warning branches (it is never
reset on entry); `run_report.job_summary` is aliased, not copied, so the
reconciliation mutations are visible in the returned run record when the
summary came from the run record itself (and not from
`compile_job_summary`). -/
def detailedAdd (st : DetailedReport) (r : WmsRunReport) (useGlobalId : Bool) :
    DetailedResult :=
  match detailedExpected r with
  | .error e => ⟨.error e, st, r⟩
  | .ok expected =>
    match lookupAllStates r.job_state_counts WmsStates.all with
    | .error e => ⟨.error e, st, r⟩
    | .ok totalCounts =>
      let expTotal := if expected ≠ [] then sumValues expected else r.total_number_jobs
      let table1 := st.table ++ [⟨"TOTAL", totalCounts, expTotal⟩]
      if r.job_summary ≠ [] then
        match detailedLabelLoop expected (detailedJobOrder expected r.job_summary)
            r.job_summary table1 with
        | (res, rows, js2) =>
          ⟨res, ⟨rows, if expected = [] then some orderWarning else st.msg⟩,
            { r with job_summary := js2 }⟩
      else if r.jobs ≠ [] then
        match detailedLabelLoop expected
            (detailedJobOrder expected (compile_job_summary r.jobs))
            (compile_job_summary r.jobs) table1 with
        | (res, rows, _) =>
          ⟨res, ⟨rows, if expected = [] then some orderWarning else st.msg⟩, r⟩
      else
        ⟨.ok (),
          ⟨table1,
            some (jobSummaryWarning (if useGlobalId then r.global_wms_id else r.wms_id))⟩,
          r⟩

/-- One row of the exit-codes report: label, payload-failure count,
infrastructure-failure count, and the rendered infrastructure codes. -/
structure ExitRow where
  label : String
  pipe_error_count : ℤ
  infra_error_count : ℤ
  infra_error_codes : String
deriving DecidableEq, Repr

/-- The mutable state of an `ExitCodesReport`. -/
structure ExitReport where
  table : List ExitRow
  msg : Option String
deriving DecidableEq, Repr

/-- The outcome of one `ExitCodesReport.add` call. -/
structure ExitResult where
  res : Except PyErr Unit
  report : ExitReport
deriving DecidableEq, Repr

/-- The per-label row of `ExitCodesReport.add`, given the label's exit
codes.  `pipe_error_count` is `sum(code for code in exit_codes if
code == 1)` — the sum, in the source, not the length; the infrastructure
codes are those neither 0 nor 1, rendered deduplicated, stringified,
sorted and comma-joined, or "None" when there are none. -/
def exitRowOfCodes (label : String) (exit_codes : List ℤ) : ExitRow :=
  if exit_codes ≠ [] then
    let pipe_error_count := ((exit_codes.filter fun c => c == 1).sum)
    let infra_codes := exit_codes.filter fun c => c ≠ 0 && c ≠ 1
    if infra_codes ≠ [] then
      ⟨label, pipe_error_count, (infra_codes.length : ℤ),
        String.intercalate ", " (pySorted (infra_codes.map toString).dedup)⟩
    else
      ⟨label, pipe_error_count, 0, "None"⟩
  else
    ⟨label, 0, 0, "None"⟩

/-- The per-label loop of `ExitCodesReport.add`: `exit_code_summary[label]`
is indexed directly (`KeyError` on a missing label, keeping the rows
already appended), then one row is appended per label. -/
def exitLoop (ecs : List (String × List ℤ)) :
    List String → List ExitRow → Except PyErr Unit × List ExitRow
  | [], acc => (.ok (), acc)
  | label :: rest, acc =>
    match alookup ecs label with
    | none => (.error (.keyError label), acc)
    | some exit_codes => exitLoop ecs rest (acc ++ [exitRowOfCodes label exit_codes])

/-- `ExitCodesReport.add`: recover the ordered labels from `run_summary`
(the counts are unpacked but never parsed), or set the advisory message
and add no rows when `run_summary` is falsy; then emit one row per
label. -/
def exitAdd (st : ExitReport) (r : WmsRunReport) (useGlobalId : Bool) : ExitResult :=
  if r.run_summary = "" then
    ⟨.ok (),
      ⟨st.table,
        some (jobSummaryWarning (if useGlobalId then r.global_wms_id else r.wms_id))⟩⟩
  else
    match parseRunSummaryLabels (pySplit r.run_summary ';') [] with
    | .error e => ⟨.error e, st⟩
    | .ok labels =>
      match exitLoop r.exit_code_summary labels st.table with
      | (res, rows) => ⟨res, ⟨rows, st.msg⟩⟩

/-- Every enumeration state has an entry in the mapping — the implicit
precondition under which direct `[state]` indexing cannot raise. -/
def allStatesPresent (m : Counts) : Bool :=
  WmsStates.all.all fun s => (alookup m s).isSome

/-- The per-state values of a mapping in enumeration order (missing
states as 0; used only where every state is present). -/
def statesVec (m : Counts) : List ℤ :=
  WmsStates.all.map fun s => (alookup m s).getD 0

/-- A malformed `run_summary` segment in the sense of the spec: it lacks
exactly one ":" or its count piece is non-numeric. -/
def malformedSegment (part : String) : Bool :=
  match pySplit part ':' with
  | [_, count] => (pyIntOfString count).isNone
  | _ => true

/-- A `run_summary` segment lacking exactly one ":" — the only
malformation `ExitCodesReport.add` can notice, since it never parses the
count piece. -/
def noColonSegment (part : String) : Bool :=
  match pySplit part ':' with
  | [_, _] => false
  | _ => true

/-- The exit-codes row as the spec describes it: `pipe_error_count` is
the NUMBER of exit codes exactly equal to 1, `infra_error_count` the
number of codes neither 0 nor 1, and `infra_error_codes` the distinct
infrastructure codes stringified, sorted lexicographically and joined
with ", ", or the literal "None" when there are none (also covering a
label with no exit codes recorded at all: `(label, 0, 0, "None")`). -/
def specExitRow (label : String) (codes : List ℤ) : ExitRow :=
  let infra_codes := codes.filter fun c => c ≠ 0 && c ≠ 1
  { label := label
    pipe_error_count := ((codes.filter fun c => c == 1).length : ℤ)
    infra_error_count := (infra_codes.length : ℤ)
    infra_error_codes :=
      if infra_codes = [] then "None"
      else String.intercalate ", " (pySorted (infra_codes.map toString).dedup) }

/-- A full per-state mapping from eight explicit values, in enumeration
order. -/
def mkCounts (u r p ru s f d h : ℤ) : Counts :=
  [(.UNREADY, u), (.READY, r), (.PENDING, p), (.RUNNING, ru),
   (.SUCCEEDED, s), (.FAILED, f), (.DELETED, d), (.HELD, h)]

/-- The all-zero per-state mapping. -/
def zeroCounts : Counts := mkCounts 0 0 0 0 0 0 0 0

/-- A run with 29 of 100 jobs succeeded: the spec example whose success
percentage the binary64 computation renders as "28", not "29". -/
def runPct29 : WmsRunReport :=
  { wms_id := "p29", total_number_jobs := 100,
    job_state_counts := mkCounts 0 0 0 0 29 71 0 0 }

/-- A run with 150 of 200 jobs succeeded. -/
def runPct150 : WmsRunReport :=
  { wms_id := "p150", total_number_jobs := 200,
    job_state_counts := mkCounts 0 0 0 0 150 50 0 0 }

/-- A run with 151 of 200 jobs succeeded. -/
def runPct151 : WmsRunReport :=
  { wms_id := "p151", total_number_jobs := 200,
    job_state_counts := mkCounts 0 0 0 0 151 49 0 0 }

/-- A run with an unknown (zero) total job count. -/
def runPct0 : WmsRunReport :=
  { wms_id := "p0", total_number_jobs := 0,
    job_state_counts := mkCounts 0 0 0 0 5 0 0 0 }

/-- A run whose `run_summary` segment "a:xyz" carries a non-numeric
count, with an (empty) exit-code record for label "a". -/
def runBadCount : WmsRunReport :=
  { wms_id := "bc", run_summary := "a:xyz", job_state_counts := zeroCounts,
    exit_code_summary := [("a", [])] }

/-- A run whose `run_summary` segment "b" lacks a ":" entirely. -/
def runBadColon : WmsRunReport :=
  { wms_id := "bcol", run_summary := "a:10;b", job_state_counts := zeroCounts,
    job_summary := [("a", zeroCounts)], exit_code_summary := [("a", [])] }

/-- A run with neither a job summary nor per-job data: adding it sets
the missing-job-summary warning. -/
def runNoSummary : WmsRunReport :=
  { wms_id := "id1", total_number_jobs := 3, job_state_counts := mkCounts 0 0 0 3 0 0 0 0 }

/-- A well-formed run (summary matches observations) whose `add`
encounters no data-quality issue. -/
def runClean : WmsRunReport :=
  { wms_id := "id2", run_summary := "a:1", total_number_jobs := 1,
    job_state_counts := mkCounts 0 0 0 0 1 0 0 0,
    job_summary := [("a", mkCounts 0 0 0 0 1 0 0 0)] }

/-- A run whose label "a" observes 7 jobs against 10 expected: the
reconciliation writes 3 into the aliased UNREADY entry of the run's own
`job_summary`. -/
def runMutated : WmsRunReport :=
  { wms_id := "m1", run_summary := "a:10", total_number_jobs := 10,
    job_state_counts := mkCounts 0 0 0 7 0 0 0 0,
    job_summary := [("a", mkCounts 0 0 0 7 0 0 0 0)] }

/-- A run whose `job_state_counts` lacks every state but RUNNING. -/
def runPartialCounts : WmsRunReport :=
  { wms_id := "pc", run_summary := "a:10", total_number_jobs := 10,
    job_state_counts := [(.RUNNING, 7)],
    job_summary := [("a", mkCounts 0 0 0 7 0 0 0 0)] }

/-- A run for exercising missing-label sentinel rows: label "c" is
expected but absent from the observed job summary. -/
def runMissingLabel : WmsRunReport :=
  { wms_id := "ml", run_summary := "a:7;c:4", total_number_jobs := 11,
    job_state_counts := mkCounts 0 0 0 7 0 0 0 0,
    job_summary := [("a", mkCounts 0 0 0 7 0 0 0 0)] }

/-- A run with no `run_summary` but an observed job summary, for the
alphabetical-fallback path ("zz" observed before "aa"). -/
def runNoOrder : WmsRunReport :=
  { wms_id := "no", total_number_jobs := 12,
    job_state_counts := mkCounts 0 0 0 7 5 0 0 0,
    job_summary := [("zz", mkCounts 0 0 0 7 0 0 0 0), ("aa", mkCounts 0 0 0 0 5 0 0 0)] }

/-- A run with exit codes `[1, 1, 2, 0, 3, 3]` for label "a" and none
recorded for label "b". -/
def runExit : WmsRunReport :=
  { wms_id := "ex", run_summary := "a:6;b:2", job_state_counts := zeroCounts,
    exit_code_summary := [("a", [1, 1, 2, 0, 3, 3]), ("b", [])] }

theorem alookup_aupdate_self {α β : Type} [DecidableEq α] (l : List (α × β)) (k : α) (v : β) :
    alookup (aupdate l k v) k = some v := by
  induction l with
  | nil => simp [aupdate, alookup]
  | cons hd tl ih =>
    obtain ⟨k0, v0⟩ := hd
    by_cases h : k0 = k
    · simp [aupdate, h, alookup]
    · simp [aupdate, h, alookup, ih]

theorem alookup_aupdate_ne {α β : Type} [DecidableEq α] (l : List (α × β)) (k k' : α) (v : β)
    (h : k' ≠ k) : alookup (aupdate l k v) k' = alookup l k' := by
  have h2 : k ≠ k' := Ne.symm h
  induction l with
  | nil => simp [aupdate, alookup, h2]
  | cons hd tl ih =>
    obtain ⟨k0, v0⟩ := hd
    by_cases h0 : k0 = k
    · subst h0
      simp [aupdate, alookup, h2]
    · simp [aupdate, h0, alookup, ih]

theorem aupdate_keys {α β : Type} [DecidableEq α] (l : List (α × β)) (k : α) (v : β) :
    (aupdate l k v).map Prod.fst =
      if k ∈ l.map Prod.fst then l.map Prod.fst else l.map Prod.fst ++ [k] := by
  induction l with
  | nil => simp [aupdate]
  | cons hd tl ih =>
    obtain ⟨k0, v0⟩ := hd
    by_cases h0 : k0 = k
    · simp [aupdate, h0]
    · simp only [aupdate, if_neg h0, List.map_cons, List.mem_cons]
      rw [ih]
      by_cases hk : k ∈ tl.map Prod.fst
      · simp [hk]
      · have hne : ¬k = k0 := fun hh => h0 hh.symm
        have : ¬(k = k0 ∨ k ∈ tl.map Prod.fst) := by
          rintro (h | h)
          · exact h0 h.symm
          · exact hk h
        simp [hk, this, hne]

theorem aupdate_keys_nodup {α β : Type} [DecidableEq α] (l : List (α × β)) (k : α) (v : β)
    (h : (l.map Prod.fst).Nodup) : ((aupdate l k v).map Prod.fst).Nodup := by
  rw [aupdate_keys]
  by_cases hk : k ∈ l.map Prod.fst
  · simpa [hk]
  · simpa [hk] using List.Nodup.append h (List.nodup_singleton k) (by simpa using hk)

theorem alookup_mem_keys {α β : Type} [DecidableEq α] (l : List (α × β)) (k : α) (v : β)
    (h : alookup l k = some v) : k ∈ l.map Prod.fst := by
  induction l with
  | nil => simp [alookup] at h
  | cons hd tl ih =>
    obtain ⟨k0, v0⟩ := hd
    by_cases h0 : k0 = k
    · simp [h0]
    · simp only [alookup, if_neg h0] at h
      simpa using Or.inr (ih h)

theorem parseRunSummaryGo_nodup (parts : List String) (acc res : List (String × ℤ))
    (hacc : (acc.map Prod.fst).Nodup)
    (h : parseRunSummaryGo parts acc = .ok res) : (res.map Prod.fst).Nodup := by
  induction parts generalizing acc with
  | nil =>
    simp only [parseRunSummaryGo] at h
    cases h
    exact hacc
  | cons part rest ih =>
    simp only [parseRunSummaryGo] at h
    split at h
    · split at h
      · exact ih _ (aupdate_keys_nodup _ _ _ hacc) h
      · cases h
    · cases h

theorem detailedExpected_nodup (r : WmsRunReport) (expected : List (String × ℤ))
    (h : detailedExpected r = .ok expected) : (expected.map Prod.fst).Nodup := by
  unfold detailedExpected at h
  by_cases hrs : r.run_summary = ""
  · rw [if_pos hrs] at h
    cases h
    simp
  · rw [if_neg hrs] at h
    exact parseRunSummaryGo_nodup _ [] expected (by simp) h

theorem parseRunSummaryGo_error_of_malformed (parts : List String) (acc : List (String × ℤ))
    (h : ∃ p ∈ parts, malformedSegment p = true) :
    ∃ e, parseRunSummaryGo parts acc = .error e := by
  induction parts generalizing acc with
  | nil => simp at h
  | cons part rest ih =>
    simp only [parseRunSummaryGo]
    split
    · rename_i label count heq
      split
      · rename_i n hint
        rcases h with ⟨p, hp, hbad⟩
        rcases List.mem_cons.mp hp with hp | hp
        · subst hp
          rw [malformedSegment, heq] at hbad
          simp at hbad
          rw [hint] at hbad
          simp at hbad
        · exact ih _ ⟨p, hp, hbad⟩
      · exact ⟨_, rfl⟩
    · exact ⟨_, rfl⟩

theorem parseRunSummaryLabels_error_of_noColon (parts : List String) (acc : List String)
    (h : ∃ p ∈ parts, noColonSegment p = true) :
    ∃ e, parseRunSummaryLabels parts acc = .error e := by
  induction parts generalizing acc with
  | nil => simp at h
  | cons part rest ih =>
    simp only [parseRunSummaryLabels]
    split
    · rename_i label rest2 heq
      rcases h with ⟨p, hp, hbad⟩
      rcases List.mem_cons.mp hp with hp | hp
      · subst hp
        rw [noColonSegment, heq] at hbad
        simp at hbad
      · exact ih _ ⟨p, hp, hbad⟩
    · exact ⟨_, rfl⟩

theorem lookupAllStates_ok (m : Counts) (states : List WmsStates)
    (h : ∀ s ∈ states, (alookup m s).isSome) :
    lookupAllStates m states = .ok (states.map fun s => (alookup m s).getD 0) := by
  induction states with
  | nil => simp [lookupAllStates]
  | cons s rest ih =>
    have hs := h s (by simp)
    rcases hv : alookup m s with _ | v
    · rw [hv] at hs
      simp at hs
    · simp only [lookupAllStates, hv, List.map_cons]
      rw [ih fun s hs => h s (by simp [hs])]
      simp [hv, Except.map]

theorem lookupAllStates_error (m : Counts) (states : List WmsStates)
    (h : ∃ s ∈ states, alookup m s = none) :
    ∃ k, lookupAllStates m states = .error (.keyError k) := by
  induction states with
  | nil => simp at h
  | cons s rest ih =>
    rcases hv : alookup m s with _ | v
    · exact ⟨s.name, by simp [lookupAllStates, hv]⟩
    · rcases h with ⟨s', hs', hnone⟩
      rcases List.mem_cons.mp hs' with hs' | hs'
      · subst hs'
        rw [hv] at hnone
        cases hnone
      · rcases ih ⟨s', hs', hnone⟩ with ⟨k, hk⟩
        exact ⟨k, by simp [lookupAllStates, hv, hk, Except.map]⟩

theorem lookupAllStates_of_full (m : Counts) (hall : allStatesPresent m = true) :
    lookupAllStates m WmsStates.all = .ok (statesVec m) := by
  apply lookupAllStates_ok
  intro s hs
  exact List.all_eq_true.mp hall s hs

theorem allStatesPresent_aupdate (m : Counts) (k : WmsStates) (v : ℤ)
    (hall : allStatesPresent m = true) : allStatesPresent (aupdate m k v) = true := by
  apply List.all_eq_true.mpr
  intro s hs
  by_cases hk : s = k
  · subst hk
    simp [alookup_aupdate_self]
  · rw [alookup_aupdate_ne m k s v hk]
    exact List.all_eq_true.mp hall s hs

theorem detailedRowBuild_ok (expected : List (String × ℤ)) (label : String) (counts : Counts)
    (ev : ℤ) (hall : allStatesPresent counts = true)
    (hexp : alookup expected label = some ev) :
    detailedRowBuild expected label counts = .ok ⟨label, statesVec counts, ev⟩ := by
  have hne : expected ≠ [] := by
    intro hnil
    rw [hnil] at hexp
    simp [alookup] at hexp
  unfold detailedRowBuild
  rw [lookupAllStates_of_full counts hall]
  simp [hne, hexp]

theorem detailedRowBuild_empty (label : String) (counts : Counts)
    (hall : allStatesPresent counts = true) :
    detailedRowBuild [] label counts = .ok ⟨label, statesVec counts, -1⟩ := by
  unfold detailedRowBuild
  rw [lookupAllStates_of_full counts hall]
  simp

theorem detailedRowBuild_label (expected : List (String × ℤ)) (label : String)
    (counts : Counts) (row : DetailedRow)
    (h : detailedRowBuild expected label counts = .ok row) : row.label = label := by
  unfold detailedRowBuild at h
  split at h
  · cases h
  · split at h
    · cases h
      rfl
    · split at h
      · cases h
        rfl
      · cases h

theorem detailedRowBuild_expected_of_empty (label : String) (counts : Counts)
    (row : DetailedRow) (h : detailedRowBuild [] label counts = .ok row) :
    row.expected = -1 := by
  unfold detailedRowBuild at h
  split at h
  · cases h
  · simp at h
    rw [← h]

theorem detailedStep_ok_label (expected : List (String × ℤ)) (js : JobSummary)
    (label : String) (row : DetailedRow)
    (h : (detailedStep expected js label).1 = .ok row) : row.label = label := by
  unfold detailedStep at h
  split at h
  · dsimp only at h
    exact detailedRowBuild_label _ _ _ _ h
  · split at h
    · exact detailedRowBuild_label _ _ _ _ h
    · split at h
      · exact detailedRowBuild_label _ _ _ _ h
      · split at h
        · cases h
        · exact detailedRowBuild_label _ _ _ _ h

theorem detailedStep_expected_of_empty (js : JobSummary) (label : String) (row : DetailedRow)
    (h : (detailedStep [] js label).1 = .ok row) : row.expected = -1 := by
  unfold detailedStep at h
  split at h
  · dsimp only at h
    exact detailedRowBuild_expected_of_empty _ _ _ h
  · split at h
    · exact detailedRowBuild_expected_of_empty _ _ _ h
    · rename_i counts ev hexp
      simp [alookup] at hexp

theorem detailedStep_snd_lookup (expected : List (String × ℤ)) (js : JobSummary)
    (label other : String) (hne : other ≠ label) :
    alookup (detailedStep expected js label).2 other = alookup js other := by
  unfold detailedStep
  split
  · rfl
  · split
    · rfl
    · split
      · rfl
      · split
        · rfl
        · exact alookup_aupdate_ne js label other _ hne

theorem detailedStep_missing (expected : List (String × ℤ)) (js : JobSummary)
    (label : String) (ev : ℤ)
    (hmiss : alookup js label = none) (hexp : alookup expected label = some ev) :
    detailedStep expected js label =
      (.ok ⟨label, WmsStates.all.map fun _ => (-1 : ℤ), ev⟩, js) := by
  have hfull : allStatesPresent (WmsStates.all.map fun s => (s, (-1 : ℤ))) = true := by
    decide
  have hvec : statesVec (WmsStates.all.map fun s => (s, (-1 : ℤ))) =
      WmsStates.all.map fun _ => (-1 : ℤ) := by
    decide
  unfold detailedStep
  rw [hmiss]
  rw [detailedRowBuild_ok expected label _ ev hfull hexp, hvec]

theorem detailedLabelLoop_rows (expected : List (String × ℤ)) (P : DetailedRow → Prop)
    (hP : ∀ js label row, (detailedStep expected js label).1 = .ok row → P row) :
    ∀ (labels : List String) (js : JobSummary) (acc : List DetailedRow),
    ∃ extra, (detailedLabelLoop expected labels js acc).2.1 = acc ++ extra ∧
      ∀ row ∈ extra, P row ∧ row.label ∈ labels := by
  intro labels
  induction labels with
  | nil =>
    intro js acc
    exact ⟨[], by simp [detailedLabelLoop]⟩
  | cons label rest ih =>
    intro js acc
    simp only [detailedLabelLoop]
    rcases hstep : detailedStep expected js label with ⟨res, js2⟩
    rcases res with e | row
    · exact ⟨[], by simp⟩
    · have hrow : P row ∧ row.label = label := by
        have h1 := hP js label row (by rw [hstep])
        have h2 := detailedStep_ok_label expected js label row (by rw [hstep])
        exact ⟨h1, h2⟩
      rcases ih js2 (acc ++ [row]) with ⟨extra, hextra, hall⟩
      refine ⟨row :: extra, by simpa using hextra, ?_⟩
      intro r hr
      rcases List.mem_cons.mp hr with hr | hr
      · subst hr
        exact ⟨hrow.1, by simp [hrow.2]⟩
      · rcases hall r hr with ⟨h1, h2⟩
        exact ⟨h1, by simp [h2]⟩

theorem detailedLabelLoop_ok_map (expected : List (String × ℤ)) :
    ∀ (labels : List String) (js : JobSummary) (acc : List DetailedRow),
    (detailedLabelLoop expected labels js acc).1 = .ok () →
    ∃ extra, (detailedLabelLoop expected labels js acc).2.1 = acc ++ extra ∧
      extra.map (fun row => row.label) = labels := by
  intro labels
  induction labels with
  | nil =>
    intro js acc _
    exact ⟨[], by simp [detailedLabelLoop]⟩
  | cons label rest ih =>
    intro js acc hok
    simp only [detailedLabelLoop] at hok ⊢
    rcases hstep : detailedStep expected js label with ⟨res, js2⟩
    rcases res with e | row
    · rw [hstep] at hok
      simp at hok
    · rw [hstep] at hok
      simp only at hok
      rcases ih js2 (acc ++ [row]) hok with ⟨extra, hextra, hmap⟩
      refine ⟨row :: extra, by simpa using hextra, ?_⟩
      have := detailedStep_ok_label expected js label row (by rw [hstep])
      simp [this, hmap]

theorem detailedLabelLoop_filter_notin (expected : List (String × ℤ)) (label : String) :
    ∀ (labels : List String) (js : JobSummary) (acc : List DetailedRow),
    label ∉ labels →
    ((detailedLabelLoop expected labels js acc).2.1).filter (fun row => row.label == label) =
      acc.filter (fun row => row.label == label) := by
  intro labels
  induction labels with
  | nil =>
    intro js acc _
    simp [detailedLabelLoop]
  | cons l rest ih =>
    intro js acc hnotin
    simp only [detailedLabelLoop]
    rcases hstep : detailedStep expected js l with ⟨res, js2⟩
    rcases res with e | row
    · rfl
    · have hlab : row.label = l := detailedStep_ok_label expected js l row (by rw [hstep])
      have hne : ¬(row.label == label) := by
        simp only [hlab, beq_iff_eq]
        intro hcon
        exact hnotin (by simp [hcon])
      rw [ih js2 (acc ++ [row]) (fun hmem => hnotin (by simp [hmem]))]
      rw [List.filter_append]
      simp [hne]

theorem sum_filter_one_eq_count (codes : List ℤ) :
    ((codes.filter fun c => c == 1).sum) = ((codes.filter fun c => c == 1).length : ℤ) := by
  induction codes with
  | nil => simp
  | cons c rest ih =>
    by_cases hc : c = 1
    · subst hc
      simp [List.filter_cons, ih]
      omega
    · have : ¬(c == 1) := by simpa using hc
      simp [List.filter_cons, this, ih]

theorem exitRowOfCodes_spec (label : String) (codes : List ℤ) :
    exitRowOfCodes label codes = specExitRow label codes := by
  by_cases hc : codes = []
  · subst hc
    rfl
  · by_cases hi : codes.filter (fun c => c ≠ 0 && c ≠ 1) = []
    · unfold exitRowOfCodes specExitRow
      dsimp only
      rw [if_pos hc, if_neg (fun h => h hi), if_pos hi]
      have hi2 := hi
      simp only [ne_eq, decide_not] at hi2
      simp [sum_filter_one_eq_count, hi2]
    · unfold exitRowOfCodes specExitRow
      dsimp only
      rw [if_pos hc, if_pos hi, if_neg hi]
      simp [sum_filter_one_eq_count]

theorem exitLoop_ok (ecs : List (String × List ℤ)) :
    ∀ (labels : List String) (acc : List ExitRow),
    (∀ l ∈ labels, (alookup ecs l).isSome) →
    exitLoop ecs labels acc =
      (.ok (), acc ++ labels.map fun l => exitRowOfCodes l ((alookup ecs l).getD [])) := by
  intro labels
  induction labels with
  | nil =>
    intro acc _
    simp [exitLoop]
  | cons l rest ih =>
    intro acc h
    have hl := h l (by simp)
    rcases hv : alookup ecs l with _ | codes
    · rw [hv] at hl
      simp at hl
    · simp only [exitLoop, hv, List.map_cons]
      rw [ih (acc ++ [exitRowOfCodes l codes]) fun l hl => h l (by simp [hl])]
      simp [hv]

/-- C4 (confirmed): for every run record, `SummaryRunReport.add` emits
flag " " whenever the run state is not RUNNING, regardless of job counts;
when the run state is RUNNING it emits "F" if the FAILED count is
non-zero, else "D" if the DELETED count is non-zero, else "H" if the HELD
count is non-zero, else " " — so a running run with both failed and held
jobs always reports "F", never "H". -/
theorem c4_attention_flag (st : SummaryReport) (r : WmsRunReport) (g : Bool) :
    (summaryAdd st r g).table.getLast?.map (fun row => row.flag) =
      some (if r.state ≠ WmsStates.RUNNING then " "
        else if (alookup r.job_state_counts WmsStates.FAILED).getD 0 ≠ 0 then "F"
        else if (alookup r.job_state_counts WmsStates.DELETED).getD 0 ≠ 0 then "D"
        else if (alookup r.job_state_counts WmsStates.HELD).getD 0 ≠ 0 then "H"
        else " ") := by
  unfold summaryAdd
  rw [List.getLast?_concat]
  unfold runFlag
  by_cases h : r.state = WmsStates.RUNNING <;> simp [h]

/-- C3 counterexample: with 29 of 100 jobs succeeded the claim requires
the %S value `floor(100 * 29 / 100) = 29` rendered as "29", but
`SummaryRunReport.add` computes `int(29 / 100 * 100)` in binary64, which
is 28 ("28"): `29 / 100` rounds to a double slightly below 0.29 and the
product to one slightly below 29. -/
theorem c3_counterexample :
    (summaryAdd ⟨[], none⟩ runPct29 false).table.map (fun row => row.percent) = ["28"] ∧
    toString ((100 * 29) / 100 : ℤ) = "29" ∧ ("28" : String) ≠ "29" := by
  decide

/-- C3 amended (corrected): for every run record, `SummaryRunReport.add`
(and `AbridgedRunReport.add`) produces the %S value "UNK" when
`total_number_jobs` is zero, and otherwise the integer string of
`int(succeeded / total_number_jobs * 100)` evaluated in IEEE binary64
arithmetic and truncated toward zero, where `succeeded` is 0 when
SUCCEEDED is absent from `job_state_counts`.  This agrees with
`floor(100 * succeeded / total)` on the spec examples 150/200 and
151/200 (the latter showing truncation of 75.5, not rounding), but not
universally: 29 of 100 yields "28". -/
theorem c3_success_percentage :
    (∀ (st : SummaryReport) (r : WmsRunReport) (g : Bool),
      (summaryAdd st r g).table.getLast?.map (fun row => row.percent) =
        some (percentSucceeded r)) ∧
    (∀ r : WmsRunReport, r.total_number_jobs = 0 → percentSucceeded r = "UNK") ∧
    (∀ r : WmsRunReport, r.total_number_jobs ≠ 0 →
      percentSucceeded r = toString (dyadicTrunc (pyMul100 (pyTrueDiv
        ((alookup r.job_state_counts WmsStates.SUCCEEDED).getD 0) r.total_number_jobs)))) ∧
    percentSucceeded runPct0 = "UNK" ∧
    percentSucceeded runPct150 = "75" ∧
    percentSucceeded runPct151 = "75" ∧
    percentSucceeded runPct29 = "28" := by
  refine ⟨?_, ?_, ?_, by decide, by decide, by decide, by decide⟩
  · intro st r g
    unfold summaryAdd
    rw [List.getLast?_concat]
    rfl
  · intro r h
    unfold percentSucceeded
    rw [if_pos h]
  · intro r h
    unfold percentSucceeded
    rw [if_neg h]

/-- Witness for the amended C3 theorem at concrete runs. -/
theorem c3_success_percentage_witness :
    (runPct0.total_number_jobs = 0 ∧ percentSucceeded runPct0 = "UNK") ∧
    (runPct29.total_number_jobs ≠ 0 ∧
      percentSucceeded runPct29 = toString (dyadicTrunc (pyMul100 (pyTrueDiv
        ((alookup runPct29.job_state_counts WmsStates.SUCCEEDED).getD 0)
        runPct29.total_number_jobs)))) :=
  ⟨⟨by decide, c3_success_percentage.2.1 runPct0 (by decide)⟩,
   ⟨by decide, c3_success_percentage.2.2.1 runPct29 (by decide)⟩⟩

/-- C2 (confirmed): for every run record with a run_summary and for each
label in run_summary order, `ExitCodesReport.add` emits a row whose
pipe_error_count equals the NUMBER of the label's exit codes exactly
equal to 1 (the source sums the codes that equal 1, which is the same
number), whose infra_error_count equals the number of exit codes neither
0 nor 1, and whose infra_error_codes is the distinct infrastructure codes
stringified, sorted lexicographically and joined with ", ", or "None"
when there are none; a label with an empty exit-code list yields
`(label, 0, 0, "None")` and is not an error. -/
theorem c2_exit_code_classification (st : ExitReport) (r : WmsRunReport) (g : Bool)
    (labels : List String)
    (hsum : r.run_summary ≠ "")
    (hparse : parseRunSummaryLabels (pySplit r.run_summary ';') [] = .ok labels)
    (hfound : ∀ l ∈ labels, (alookup r.exit_code_summary l).isSome) :
    (exitAdd st r g).res = .ok () ∧
    (exitAdd st r g).report.table =
      st.table ++ labels.map fun l => specExitRow l ((alookup r.exit_code_summary l).getD []) := by
  unfold exitAdd
  rw [if_neg hsum, hparse]
  dsimp only
  rw [exitLoop_ok r.exit_code_summary labels st.table hfound]
  refine ⟨rfl, ?_⟩
  simp [exitRowOfCodes_spec]

/-- Witness for C2: exit codes `[1, 1, 2, 0, 3, 3]` yield the row
`("a", 2, 3, "2, 3")` and an empty list yields `("b", 0, 0, "None")`. -/
theorem c2_exit_code_classification_witness :
    (runExit.run_summary ≠ "" ∧
      parseRunSummaryLabels (pySplit runExit.run_summary ';') [] = .ok ["a", "b"] ∧
      (∀ l ∈ ["a", "b"], (alookup runExit.exit_code_summary l).isSome)) ∧
    ((exitAdd ⟨[], none⟩ runExit false).res = .ok () ∧
      (exitAdd ⟨[], none⟩ runExit false).report.table =
        [] ++ ["a", "b"].map fun l => specExitRow l ((alookup runExit.exit_code_summary l).getD [])) ∧
    specExitRow "a" [1, 1, 2, 0, 3, 3] = ⟨"a", 2, 3, "2, 3"⟩ ∧
    specExitRow "b" [] = ⟨"b", 0, 0, "None"⟩ :=
  ⟨⟨by decide, by decide, by decide⟩,
   c2_exit_code_classification ⟨[], none⟩ runExit false ["a", "b"]
     (by decide) (by decide) (by decide),
   by decide, by decide⟩

theorem alookup_normalize (m : Counts) (s0 : WmsStates) :
    alookup (WmsStates.all.map fun s => (s, (alookup m s).getD 0)) s0 =
      some ((alookup m s0).getD 0) := by
  cases s0 <;> rfl

/-- C10 (confirmed): `DetailedRunReport.add` indexes the run's
`job_state_counts` directly for every `WmsStates` value when building the
TOTAL row, so a run record whose mapping misses some state makes the call
fail with a key lookup error before appending any row (state and run
record returned untouched); `SummaryRunReport.add`, by contrast, reads
every count with a default of 0, never fails, and always appends exactly
one row — its output is unchanged if missing states are filled in as
explicit zeros. -/
theorem c10_total_row_indexing :
    (∀ (st : DetailedReport) (r : WmsRunReport) (g : Bool) (expected : List (String × ℤ)),
      detailedExpected r = .ok expected →
      (∃ s ∈ WmsStates.all, alookup r.job_state_counts s = none) →
      ∃ k, detailedAdd st r g = ⟨.error (.keyError k), st, r⟩) ∧
    (∀ (st : SummaryReport) (r : WmsRunReport) (g : Bool),
      (summaryAdd st r g).table.length = st.table.length + 1 ∧
      summaryAdd st r g = summaryAdd st
        { r with job_state_counts :=
            WmsStates.all.map fun s => (s, (alookup r.job_state_counts s).getD 0) } g) := by
  constructor
  · intro st r g expected hexp hmiss
    rcases lookupAllStates_error r.job_state_counts WmsStates.all hmiss with ⟨k, hk⟩
    refine ⟨k, ?_⟩
    unfold detailedAdd
    rw [hexp]
    dsimp only
    rw [hk]
  · intro st r g
    constructor
    · unfold summaryAdd
      simp
    · have hn : ∀ s0 : WmsStates,
          (alookup (WmsStates.all.map fun s => (s, (alookup r.job_state_counts s).getD 0))
            s0).getD 0 = (alookup r.job_state_counts s0).getD 0 := by
        intro s0
        rw [alookup_normalize]
        rfl
      unfold summaryAdd runFlag percentSucceeded
      dsimp only
      rw [hn, hn, hn, hn]

/-- Witness for C10 at a run whose `job_state_counts` holds only the
RUNNING state. -/
theorem c10_total_row_indexing_witness :
    (detailedExpected runPartialCounts = .ok [("a", 10)] ∧
      (∃ s ∈ WmsStates.all, alookup runPartialCounts.job_state_counts s = none)) ∧
    (∃ k, detailedAdd ⟨[], none⟩ runPartialCounts false =
      ⟨.error (.keyError k), ⟨[], none⟩, runPartialCounts⟩) :=
  ⟨⟨by decide, by decide⟩,
   c10_total_row_indexing.1 ⟨[], none⟩ runPartialCounts false [("a", 10)]
     (by decide) (by decide)⟩

/-- C9 (code bug): `DetailedRunReport.add` aliases, not copies, the run's
`job_summary`, and the reconciliation `counts[UNREADY] += expected -
observed` mutates it in place: with label "a" expecting 10 but observing
7 running jobs, the run record's own summary holds UNREADY = 3 after the
call — the run record is not left unchanged. -/
theorem c9_input_mutation :
    (detailedAdd ⟨[], none⟩ runMutated false).res = .ok () ∧
    runMutated.job_summary = [("a", mkCounts 0 0 0 7 0 0 0 0)] ∧
    (detailedAdd ⟨[], none⟩ runMutated false).runOut.job_summary =
      [("a", mkCounts 3 0 0 7 0 0 0 0)] ∧
    (detailedAdd ⟨[], none⟩ runMutated false).runOut.job_summary ≠ runMutated.job_summary := by
  decide

/-- C8 counterexample: an `add` that encounters no data-quality issue
does not reset the message slot — after adding a run with no job summary
(which sets the warning) and then a clean run, the message still holds
the first call's warning instead of being unset. -/
theorem c8_counterexample :
    (detailedAdd (detailedAdd ⟨[], none⟩ runNoSummary false).report runClean false).res =
      .ok () ∧
    (detailedAdd (detailedAdd ⟨[], none⟩ runNoSummary false).report runClean false).report.msg =
      some (jobSummaryWarning "id1") ∧
    (detailedAdd (detailedAdd ⟨[], none⟩ runNoSummary false).report runClean false).report.msg ≠
      none := by
  decide

/-- C8 amended (corrected): the message slot is reset to unset by
`clear()` only; `add()` does not reset it on entry — it overwrites the
slot when the call encounters a data-quality issue and leaves the
previous value in place when it encounters none, so after an `add()` the
message may still reflect an earlier call. -/
theorem c8_message_lifecycle :
    (∀ st : DetailedReport, (detailedClear st).msg = none ∧ (detailedClear st).table = []) ∧
    (∀ (st : DetailedReport) (r : WmsRunReport) (g : Bool) (expected : List (String × ℤ)),
      detailedExpected r = .ok expected → expected ≠ [] → r.job_summary ≠ [] →
      (detailedAdd st r g).report.msg = st.msg) ∧
    (∀ (st : DetailedReport) (r : WmsRunReport) (g : Bool) (expected : List (String × ℤ)),
      detailedExpected r = .ok expected →
      allStatesPresent r.job_state_counts = true →
      r.job_summary = [] → r.jobs = [] →
      (detailedAdd st r g).report.msg =
        some (jobSummaryWarning (if g then r.global_wms_id else r.wms_id))) := by
  refine ⟨fun st => ⟨rfl, rfl⟩, ?_, ?_⟩
  · intro st r g expected hexp hne hjs
    unfold detailedAdd
    rw [hexp]
    dsimp only
    rcases hls : lookupAllStates r.job_state_counts WmsStates.all with e | totalCounts
    · rfl
    · dsimp only
      rw [if_pos hjs]
      rcases hloop : detailedLabelLoop expected
          (detailedJobOrder expected r.job_summary) r.job_summary
          (st.table ++ [⟨"TOTAL", totalCounts,
            if expected ≠ [] then sumValues expected else r.total_number_jobs⟩]) with
        ⟨res, rows, js2⟩
      rw [hloop]
      dsimp only
      rw [if_neg hne]
  · intro st r g expected hexp hall hjs hjobs
    unfold detailedAdd
    rw [hexp]
    dsimp only
    rw [lookupAllStates_of_full r.job_state_counts hall]
    dsimp only
    rw [if_neg (by simpa using hjs), if_neg (by simpa using hjobs)]

/-- Witness for the amended C8 theorem: a clean add preserves an earlier
message, an issue-carrying add overwrites it, and clear resets it. -/
theorem c8_message_lifecycle_witness :
    ((detailedClear ⟨[], some "old"⟩).msg = none ∧ (detailedClear ⟨[], some "old"⟩).table = []) ∧
    (detailedExpected runClean = .ok [("a", 1)] ∧ (["a"] ≠ ([] : List String)) ∧
      runClean.job_summary ≠ [] ∧
      (detailedAdd ⟨[], some "old"⟩ runClean false).report.msg = some "old") ∧
    (detailedExpected runNoSummary = .ok [] ∧
      allStatesPresent runNoSummary.job_state_counts = true ∧
      runNoSummary.job_summary = [] ∧ runNoSummary.jobs = [] ∧
      (detailedAdd ⟨[], some "old"⟩ runNoSummary false).report.msg =
        some (jobSummaryWarning (if false then runNoSummary.global_wms_id else runNoSummary.wms_id))) :=
  ⟨c8_message_lifecycle.1 ⟨[], some "old"⟩,
   ⟨by decide, by decide, by decide,
    c8_message_lifecycle.2.1 ⟨[], some "old"⟩ runClean false [("a", 1)]
      (by decide) (by decide) (by decide)⟩,
   ⟨by decide, by decide, by decide, by decide,
    c8_message_lifecycle.2.2 ⟨[], some "old"⟩ runNoSummary false []
      (by decide) (by decide) (by decide) (by decide)⟩⟩

/-- C6 counterexample: the segment "a:xyz" has exactly one ":" but a
non-numeric count, which the claim says makes `ExitCodesReport.add`
raise; instead the call succeeds and appends the label's row, because
that method never parses the count piece. -/
theorem c6_counterexample :
    malformedSegment "a:xyz" = true ∧
    (exitAdd ⟨[], none⟩ runBadCount false).res = .ok () ∧
    (exitAdd ⟨[], none⟩ runBadCount false).report.table = [⟨"a", 0, 0, "None"⟩] := by
  decide

/-- C6 amended (corrected): for a run whose run_summary has a segment
lacking exactly one ":" or a non-numeric count, `DetailedRunReport.add`
raises a format error that propagates, leaving the table (and run record)
unchanged; `ExitCodesReport.add` unpacks but never parses the count, so
it raises (likewise leaving its table unchanged) only for a segment
lacking exactly one ":". -/
theorem c6_malformed_run_summary :
    (∀ (st : DetailedReport) (r : WmsRunReport) (g : Bool),
      r.run_summary ≠ "" →
      (∃ p ∈ pySplit r.run_summary ';', malformedSegment p = true) →
      ∃ e, detailedAdd st r g = ⟨.error e, st, r⟩) ∧
    (∀ (st : ExitReport) (r : WmsRunReport) (g : Bool),
      r.run_summary ≠ "" →
      (∃ p ∈ pySplit r.run_summary ';', noColonSegment p = true) →
      ∃ e, exitAdd st r g = ⟨.error e, st⟩) := by
  constructor
  · intro st r g hrs hbad
    rcases parseRunSummaryGo_error_of_malformed (pySplit r.run_summary ';') [] hbad with ⟨e, he⟩
    refine ⟨e, ?_⟩
    unfold detailedAdd detailedExpected
    rw [if_neg hrs, he]
  · intro st r g hrs hbad
    rcases parseRunSummaryLabels_error_of_noColon (pySplit r.run_summary ';') [] hbad with ⟨e, he⟩
    refine ⟨e, ?_⟩
    unfold exitAdd
    rw [if_neg hrs, he]

/-- Witness for the amended C6 theorem on the run summary "a:10;b". -/
theorem c6_malformed_run_summary_witness :
    (runBadColon.run_summary ≠ "" ∧
      (∃ p ∈ pySplit runBadColon.run_summary ';', malformedSegment p = true) ∧
      (∃ p ∈ pySplit runBadColon.run_summary ';', noColonSegment p = true)) ∧
    (∃ e, detailedAdd ⟨[], none⟩ runBadColon false = ⟨.error e, ⟨[], none⟩, runBadColon⟩) ∧
    (∃ e, exitAdd ⟨[], none⟩ runBadColon false = ⟨.error e, ⟨[], none⟩⟩) :=
  ⟨⟨by decide, by decide, by decide⟩,
   c6_malformed_run_summary.1 ⟨[], none⟩ runBadColon false (by decide) (by decide),
   c6_malformed_run_summary.2 ⟨[], none⟩ runBadColon false (by decide) (by decide)⟩

/-- C1 (confirmed): whenever the per-label loop of
`DetailedRunReport.add` reaches a label present in both the parsed
expected mapping and the observed job summary, it compares the sum of the
label's observed per-state counts with the expected count; if they
differ, the emitted row (and the aliased job-summary entry) carry the
UNREADY count increased by exactly `expected - observed_sum` — possibly
negative, never clamped — and if they are equal, the row carries every
state count unchanged and the job summary is untouched. -/
theorem c1_count_reconciliation (expected : List (String × ℤ)) (js : JobSummary)
    (label : String) (counts : Counts) (ev : ℤ) (rest : List String)
    (acc : List DetailedRow)
    (hjs : alookup js label = some counts)
    (hexp : alookup expected label = some ev)
    (hall : allStatesPresent counts = true) :
    detailedLabelLoop expected (label :: rest) js acc =
      if sumValues counts = ev then
        detailedLabelLoop expected rest js (acc ++ [⟨label, statesVec counts, ev⟩])
      else
        detailedLabelLoop expected rest
          (aupdate js label (aupdate counts WmsStates.UNREADY
            ((alookup counts WmsStates.UNREADY).getD 0 + (ev - sumValues counts))))
          (acc ++ [⟨label,
            statesVec (aupdate counts WmsStates.UNREADY
              ((alookup counts WmsStates.UNREADY).getD 0 + (ev - sumValues counts))), ev⟩]) := by
  have hu : ∃ u, alookup counts WmsStates.UNREADY = some u := by
    have := List.all_eq_true.mp hall WmsStates.UNREADY (by decide)
    rcases hv : alookup counts WmsStates.UNREADY with _ | u
    · rw [hv] at this
      simp at this
    · exact ⟨u, rfl⟩
  rcases hu with ⟨u, hu⟩
  by_cases hs : sumValues counts = ev
  · rw [if_pos hs]
    have hstep : detailedStep expected js label = (.ok ⟨label, statesVec counts, ev⟩, js) := by
      unfold detailedStep
      rw [hjs]
      dsimp only
      rw [hexp]
      dsimp only
      rw [if_pos hs, detailedRowBuild_ok expected label counts ev hall hexp]
    simp only [detailedLabelLoop, hstep]
  · rw [if_neg hs]
    have hgetD : (alookup counts WmsStates.UNREADY).getD 0 = u := by
      rw [hu]
      rfl
    rw [hgetD]
    have hall2 : allStatesPresent
        (aupdate counts WmsStates.UNREADY (u + (ev - sumValues counts))) = true :=
      allStatesPresent_aupdate counts WmsStates.UNREADY _ hall
    have hstep : detailedStep expected js label =
        (.ok ⟨label,
          statesVec (aupdate counts WmsStates.UNREADY (u + (ev - sumValues counts))), ev⟩,
         aupdate js label (aupdate counts WmsStates.UNREADY (u + (ev - sumValues counts)))) := by
      unfold detailedStep
      rw [hjs]
      dsimp only
      rw [hexp]
      dsimp only
      rw [if_neg hs, hu]
      dsimp only
      rw [detailedRowBuild_ok expected label _ ev hall2 hexp]
    simp only [detailedLabelLoop, hstep]

/-- Witness for C1: label "a" expects 10 and observes 7 (discrepancy 3
added to UNREADY); label "b" expects 5 and observes 5 (unchanged). -/
theorem c1_count_reconciliation_witness :
    (alookup [("a", mkCounts 0 0 0 7 0 0 0 0)] "a" = some (mkCounts 0 0 0 7 0 0 0 0) ∧
      alookup [("a", (10 : ℤ)), ("b", 5)] "a" = some 10 ∧
      allStatesPresent (mkCounts 0 0 0 7 0 0 0 0) = true) ∧
    detailedLabelLoop [("a", 10), ("b", 5)] ["a"] [("a", mkCounts 0 0 0 7 0 0 0 0)] [] =
      (if sumValues (mkCounts 0 0 0 7 0 0 0 0) = 10 then
        detailedLabelLoop [("a", 10), ("b", 5)] [] [("a", mkCounts 0 0 0 7 0 0 0 0)]
          ([] ++ [⟨"a", statesVec (mkCounts 0 0 0 7 0 0 0 0), 10⟩])
      else
        detailedLabelLoop [("a", 10), ("b", 5)] []
          (aupdate [("a", mkCounts 0 0 0 7 0 0 0 0)] "a"
            (aupdate (mkCounts 0 0 0 7 0 0 0 0) WmsStates.UNREADY
              ((alookup (mkCounts 0 0 0 7 0 0 0 0) WmsStates.UNREADY).getD 0 +
                (10 - sumValues (mkCounts 0 0 0 7 0 0 0 0)))))
          ([] ++ [⟨"a",
            statesVec (aupdate (mkCounts 0 0 0 7 0 0 0 0) WmsStates.UNREADY
              ((alookup (mkCounts 0 0 0 7 0 0 0 0) WmsStates.UNREADY).getD 0 +
                (10 - sumValues (mkCounts 0 0 0 7 0 0 0 0)))), 10⟩])) :=
  ⟨⟨by decide, by decide, by decide⟩,
   c1_count_reconciliation [("a", 10), ("b", 5)] [("a", mkCounts 0 0 0 7 0 0 0 0)]
     "a" (mkCounts 0 0 0 7 0 0 0 0) 10 [] [] (by decide) (by decide) (by decide)⟩

theorem c5_loop_filter (expected : List (String × ℤ)) (label : String) (ev : ℤ) :
    ∀ (labels : List String) (js : JobSummary) (acc : List DetailedRow),
    labels.Nodup → label ∈ labels →
    alookup js label = none → alookup expected label = some ev →
    (detailedLabelLoop expected labels js acc).1 = .ok () →
    ((detailedLabelLoop expected labels js acc).2.1).filter (fun row => row.label == label) =
      acc.filter (fun row => row.label == label) ++
        [⟨label, WmsStates.all.map fun _ => (-1 : ℤ), ev⟩] := by
  intro labels
  induction labels with
  | nil =>
    intro js acc _ hmem
    simp at hmem
  | cons l rest ih =>
    intro js acc hnodup hmem hmiss hexp hok
    rcases List.mem_cons.mp hmem with heq | hmem2
    · subst heq
      have hstep := detailedStep_missing expected js label ev hmiss hexp
      simp only [detailedLabelLoop, hstep] at hok ⊢
      have hnotin : label ∉ rest := (List.nodup_cons.mp hnodup).1
      have hrw := detailedLabelLoop_filter_notin expected label rest js
        (acc ++ [(⟨label, WmsStates.all.map fun _ => (-1 : ℤ), ev⟩ : DetailedRow)]) hnotin
      rw [hrw, List.filter_append]
      simp
    · have hlne : l ≠ label := by
        intro hcon
        subst hcon
        exact (List.nodup_cons.mp hnodup).1 hmem2
      simp only [detailedLabelLoop] at hok ⊢
      rcases hstep : detailedStep expected js l with ⟨res, js2⟩
      rcases res with e | row
      · rw [hstep] at hok
        simp at hok
      · rw [hstep] at hok
        dsimp only at hok ⊢
        have hmiss2 : alookup js2 label = none := by
          have hpres := detailedStep_snd_lookup expected js l label (Ne.symm hlne)
          rw [hstep] at hpres
          dsimp only at hpres
          rw [hpres, hmiss]
        have hrowlab : row.label = l := detailedStep_ok_label expected js l row (by rw [hstep])
        rw [ih js2 (acc ++ [row]) (List.nodup_cons.mp hnodup).2 hmem2 hmiss2 hexp hok]
        rw [List.filter_append]
        have hne2 : ¬(row.label == label) := by simp [hrowlab, hlne]
        simp [hne2]

/-- C5 (confirmed): for every run record with a parsed non-empty
expected mapping, every label that appears in the expected mapping but is
absent from the observed job summary yields exactly one row, whose value
is the sentinel -1 in every `WmsStates` column and whose trailing
EXPECTED column holds the stored expected count for that label. -/
theorem c5_missing_label_sentinel (st : DetailedReport) (r : WmsRunReport) (g : Bool)
    (expected : List (String × ℤ)) (label : String) (ev : ℤ)
    (hexp : detailedExpected r = .ok expected)
    (hne : expected ≠ [])
    (hjs : r.job_summary ≠ [])
    (hlab : alookup expected label = some ev)
    (hmiss : alookup r.job_summary label = none)
    (hok : (detailedAdd st r g).res = .ok ()) :
    ∃ totalCounts rows,
      (detailedAdd st r g).report.table =
        st.table ++ (⟨"TOTAL", totalCounts,
          if expected ≠ [] then sumValues expected else r.total_number_jobs⟩ : DetailedRow) :: rows ∧
      rows.filter (fun row => row.label == label) =
        [⟨label, WmsStates.all.map fun _ => (-1 : ℤ), ev⟩] := by
  have hnodup := detailedExpected_nodup r expected hexp
  have hmem := alookup_mem_keys expected label ev hlab
  unfold detailedAdd at hok ⊢
  rw [hexp] at hok ⊢
  dsimp only at hok ⊢
  rcases hls : lookupAllStates r.job_state_counts WmsStates.all with e | totalCounts
  · rw [hls] at hok
    simp at hok
  · rw [hls] at hok
    dsimp only at hok ⊢
    rw [if_pos hjs] at hok ⊢
    have horder : detailedJobOrder expected r.job_summary = expected.map Prod.fst := by
      unfold detailedJobOrder
      rw [if_pos hne]
    rw [horder] at hok ⊢
    set acc0 := st.table ++ [(⟨"TOTAL", totalCounts,
      if expected ≠ [] then sumValues expected else r.total_number_jobs⟩ : DetailedRow)] with hacc0
    rcases hloop : detailedLabelLoop expected (expected.map Prod.fst) r.job_summary acc0 with
      ⟨res, rows2, js2⟩
    rw [hloop] at hok
    dsimp only at hok ⊢
    have hloop1 : (detailedLabelLoop expected (expected.map Prod.fst) r.job_summary acc0).1 =
        .ok () := by
      rw [hloop]
      exact hok
    have hfilter := c5_loop_filter expected label ev (expected.map Prod.fst) r.job_summary acc0
      hnodup hmem hmiss hlab hloop1
    rw [hloop] at hfilter
    dsimp only at hfilter
    rcases detailedLabelLoop_rows expected (fun _ => True) (fun _ _ _ _ => trivial)
        (expected.map Prod.fst) r.job_summary acc0 with ⟨extra, hextra, _⟩
    rw [hloop] at hextra
    dsimp only at hextra
    refine ⟨totalCounts, extra, ?_, ?_⟩
    · rw [hextra, hacc0]
      simp
    · have hsplit : (acc0 ++ extra).filter (fun row => row.label == label) =
          acc0.filter (fun row => row.label == label) ++
            [⟨label, WmsStates.all.map fun _ => (-1 : ℤ), ev⟩] := by
        rw [← hextra]
        exact hfilter
      rw [List.filter_append] at hsplit
      exact List.append_cancel_left hsplit

/-- Witness for C5: label "c" is expected (count 4) but unobserved. -/
theorem c5_missing_label_sentinel_witness :
    (detailedExpected runMissingLabel = .ok [("a", 7), ("c", 4)] ∧
      ([("a", 7), ("c", 4)] : List (String × ℤ)) ≠ [] ∧
      runMissingLabel.job_summary ≠ [] ∧
      alookup [("a", (7 : ℤ)), ("c", 4)] "c" = some 4 ∧
      alookup runMissingLabel.job_summary "c" = none ∧
      (detailedAdd ⟨[], none⟩ runMissingLabel false).res = .ok ()) ∧
    (∃ totalCounts rows,
      (detailedAdd ⟨[], none⟩ runMissingLabel false).report.table =
        [] ++ (⟨"TOTAL", totalCounts,
          if ([("a", 7), ("c", 4)] : List (String × ℤ)) ≠ [] then
            sumValues [("a", (7 : ℤ)), ("c", 4)]
          else runMissingLabel.total_number_jobs⟩ : DetailedRow) :: rows ∧
      rows.filter (fun row => row.label == "c") =
        [⟨"c", WmsStates.all.map fun _ => (-1 : ℤ), 4⟩]) :=
  ⟨⟨by decide, by decide, by decide, by decide, by decide, by decide⟩,
   c5_missing_label_sentinel ⟨[], none⟩ runMissingLabel false [("a", 7), ("c", 4)] "c" 4
     (by decide) (by decide) (by decide) (by decide) (by decide) (by decide)⟩

/-- C7 (confirmed): with no run_summary (empty expected mapping) but an
observed job summary, `DetailedRunReport.add` iterates the observed
labels sorted alphabetically, sets the could-not-determine-order warning,
and emits -1 in the EXPECTED column of every label row; and in all cases
(whatever branch the job summary comes from, or none), a synthetic
leading "TOTAL" row comes first, its per-state values taken from the
run's own `job_state_counts` and its EXPECTED value the sum of the
expected per-label counts when a run_summary was parsed, else the run's
reported `total_number_jobs`. -/
theorem c7_fallback_and_total_row :
    (∀ (st : DetailedReport) (r : WmsRunReport) (g : Bool),
      r.run_summary = "" → r.job_summary ≠ [] →
      allStatesPresent r.job_state_counts = true →
      (detailedAdd st r g).report.msg = some orderWarning ∧
      ∃ rows, (detailedAdd st r g).report.table =
          st.table ++ (⟨"TOTAL", statesVec r.job_state_counts,
            r.total_number_jobs⟩ : DetailedRow) :: rows ∧
        (∀ row ∈ rows, row.expected = -1) ∧
        ((detailedAdd st r g).res = .ok () →
          rows.map (fun row => row.label) = pySorted (r.job_summary.map Prod.fst))) ∧
    (∀ (st : DetailedReport) (r : WmsRunReport) (g : Bool) (expected : List (String × ℤ)),
      detailedExpected r = .ok expected →
      allStatesPresent r.job_state_counts = true →
      ∃ rows, (detailedAdd st r g).report.table =
        st.table ++ (⟨"TOTAL", statesVec r.job_state_counts,
          if expected ≠ [] then sumValues expected else r.total_number_jobs⟩ :
            DetailedRow) :: rows) := by
  constructor
  · intro st r g hrs hjs hall
    have hexp : detailedExpected r = .ok [] := by
      unfold detailedExpected
      rw [if_pos hrs]
    have horder : detailedJobOrder ([] : List (String × ℤ)) r.job_summary =
        pySorted (r.job_summary.map Prod.fst) := by
      unfold detailedJobOrder
      simp
    unfold detailedAdd
    rw [hexp]
    dsimp only
    rw [lookupAllStates_of_full r.job_state_counts hall]
    dsimp only
    rw [if_pos hjs, horder]
    rw [if_neg (show ¬(([] : List (String × ℤ)) ≠ []) by simp)]
    set acc0 := st.table ++ [(⟨"TOTAL", statesVec r.job_state_counts,
      r.total_number_jobs⟩ : DetailedRow)] with hacc0
    rcases hloop : detailedLabelLoop [] (pySorted (r.job_summary.map Prod.fst))
        r.job_summary acc0 with ⟨res, rows2, js2⟩
    dsimp only
    constructor
    · simp
    · rcases detailedLabelLoop_rows [] (fun row => row.expected = -1)
          (fun js l row h => detailedStep_expected_of_empty js l row h)
          (pySorted (r.job_summary.map Prod.fst)) r.job_summary acc0 with ⟨extra, hextra, hpred⟩
      rw [hloop] at hextra
      dsimp only at hextra
      refine ⟨extra, ?_, fun row hrow => (hpred row hrow).1, ?_⟩
      · rw [hextra, hacc0]
        simp
      · intro hores
        have hloop1 : (detailedLabelLoop [] (pySorted (r.job_summary.map Prod.fst))
            r.job_summary acc0).1 = .ok () := by
          rw [hloop]
          exact hores
        rcases detailedLabelLoop_ok_map [] (pySorted (r.job_summary.map Prod.fst))
            r.job_summary acc0 hloop1 with ⟨extra2, hextra2, hmap⟩
        rw [hloop] at hextra2
        dsimp only at hextra2
        have : extra = extra2 := by
          apply List.append_cancel_left (show acc0 ++ extra = acc0 ++ extra2 from ?_)
          rw [← hextra, ← hextra2]
        rw [this]
        exact hmap
  · intro st r g expected hexp hall
    unfold detailedAdd
    rw [hexp]
    dsimp only
    rw [lookupAllStates_of_full r.job_state_counts hall]
    dsimp only
    by_cases hjs : r.job_summary ≠ []
    · rw [if_pos hjs]
      set acc0 := st.table ++ [(⟨"TOTAL", statesVec r.job_state_counts,
        if expected ≠ [] then sumValues expected else r.total_number_jobs⟩ : DetailedRow)]
        with hacc0
      rcases hloop : detailedLabelLoop expected (detailedJobOrder expected r.job_summary)
          r.job_summary acc0 with ⟨res, rows2, js2⟩
      dsimp only
      rcases detailedLabelLoop_rows expected (fun _ => True) (fun _ _ _ _ => trivial)
          (detailedJobOrder expected r.job_summary) r.job_summary acc0 with ⟨extra, hextra, _⟩
      rw [hloop] at hextra
      dsimp only at hextra
      refine ⟨extra, ?_⟩
      rw [hextra, hacc0]
      simp
    · rw [if_neg hjs]
      by_cases hjobs : r.jobs ≠ []
      · rw [if_pos hjobs]
        set acc0 := st.table ++ [(⟨"TOTAL", statesVec r.job_state_counts,
          if expected ≠ [] then sumValues expected else r.total_number_jobs⟩ : DetailedRow)]
          with hacc0
        rcases hloop : detailedLabelLoop expected
            (detailedJobOrder expected (compile_job_summary r.jobs))
            (compile_job_summary r.jobs) acc0 with ⟨res, rows2, js2⟩
        dsimp only
        rcases detailedLabelLoop_rows expected (fun _ => True) (fun _ _ _ _ => trivial)
            (detailedJobOrder expected (compile_job_summary r.jobs))
            (compile_job_summary r.jobs) acc0 with ⟨extra, hextra, _⟩
        rw [hloop] at hextra
        dsimp only at hextra
        refine ⟨extra, ?_⟩
        rw [hextra, hacc0]
        simp
      · rw [if_neg hjobs]
        exact ⟨[], by simp⟩

/-- Witness for C7: the alphabetical-fallback run ("zz" and "aa"
observed, no run_summary) and the TOTAL row of a run with a parsed
summary. -/
theorem c7_fallback_and_total_row_witness :
    (runNoOrder.run_summary = "" ∧ runNoOrder.job_summary ≠ [] ∧
      allStatesPresent runNoOrder.job_state_counts = true) ∧
    ((detailedAdd ⟨[], none⟩ runNoOrder false).report.msg = some orderWarning ∧
      ∃ rows, (detailedAdd ⟨[], none⟩ runNoOrder false).report.table =
          [] ++ (⟨"TOTAL", statesVec runNoOrder.job_state_counts,
            runNoOrder.total_number_jobs⟩ : DetailedRow) :: rows ∧
        (∀ row ∈ rows, row.expected = -1) ∧
        ((detailedAdd ⟨[], none⟩ runNoOrder false).res = .ok () →
          rows.map (fun row => row.label) = pySorted (runNoOrder.job_summary.map Prod.fst))) ∧
    (detailedExpected runMutated = .ok [("a", 10)] ∧
      allStatesPresent runMutated.job_state_counts = true) ∧
    (∃ rows, (detailedAdd ⟨[], none⟩ runMutated false).report.table =
      [] ++ (⟨"TOTAL", statesVec runMutated.job_state_counts,
        if ([("a", 10)] : List (String × ℤ)) ≠ [] then sumValues [("a", (10 : ℤ))]
        else runMutated.total_number_jobs⟩ : DetailedRow) :: rows) :=
  ⟨⟨by decide, by decide, by decide⟩,
   c7_fallback_and_total_row.1 ⟨[], none⟩ runNoOrder false (by decide) (by decide) (by decide),
   ⟨by decide, by decide⟩,
   c7_fallback_and_total_row.2 ⟨[], none⟩ runMutated false [("a", 10)] (by decide) (by decide)⟩
